import Mathlib

/-!
Verification of the serial DAG executor (`src/ploomber/executors/Serial.py`).

The executor iterates the tasks of a DAG in the supplied dependency order,
skips tasks whose entry status is Skipped or Aborted, builds every other task
(optionally inside a single-use subprocess worker), collects every failure in a
MessageCollector, and at the end either raises a DAGBuildError carrying the
rendered failures or returns the collected reports, detaches the logging
handler and closes the DAG clients.

The embedding below is a state-passing translation of `Serial.__call__` and
`execute_in_subprocess`.  `Report` (the opaque artifact of a successful build)
and `Kwargs` (the `task_kwargs` map forwarded to every build) are type
parameters.  Side effects are made observable in the state: failure records,
collected reports, the mutated tasks, the status writes performed through the
`exec_status` setter, the progress-bar messages, the build events (which path
each build took) and the worker ids of the subprocess pools that were spawned.
-/

namespace Ploomber

/-- Task lifecycle states (`ploomber.constants.TaskStatus`). -/
inductive TaskStatus where
  | Waiting
  | Skipped
  | Aborted
  | Executed
  | Errored
deriving DecidableEq, Repr

/-- One failure record, as appended by `exceptions.append(message=tr,
task_str=repr(t))`: the full traceback text together with the textual identity
of the failing task. -/
structure Message where
  message : String
  task_str : String
deriving DecidableEq, Repr

/-- Modelled from the spec: the Task handle (class `Task` is not under `src/`;
only its consumer `Serial.__call__` is).  Per spec section 3 a task has an
identity, a mutable `exec_status`, a source-kind flag distinguishing in-memory
callable logic (`callable(t.source.value)`), and a `build(parameters) ->
Report` operation that may raise; per spec section 4.1 the assignment
`exec_status = Executed` after a successful build may itself raise, which is
modelled by the `setExecutedRaises` flag with its traceback text. -/
structure Task (Report Kwargs : Type) where
  name : String
  reprStr : String
  sourceIsCallable : Bool
  exec_status : TaskStatus
  build : Kwargs → Except String Report
  setExecutedRaises : Bool
  setExecutedTrace : String

/-- The external DAG: tasks in the precomputed dependency order
(`dag.values()`) plus the keys of the DAG-level client mapping
(`dag.clients`), each client exposing `close()`. -/
structure DAG (Report Kwargs : Type) where
  name : String
  tasks : List (Task Report Kwargs)
  clients : List String

/-- The executor's constructor-set configuration (`Serial.__init__`). -/
structure Serial where
  logging_directory : Option String
  logging_level : Nat
  build_in_subprocess : Bool

/-- Modelled from the spec: the Error Aggregator (`ploomber.MessageCollector`
is not under `src/`).  It is a run-scoped ordered accumulator of failure
records. -/
abbrev MessageCollector := List Message

/-- Modelled from the spec: one rendered block of the Error Aggregator's
output, containing the task's identity and its full trace. -/
def renderSection (m : Message) : String :=
  "* Task: " ++ m.task_str ++ "\n" ++ m.message ++ "\n"

/-- Modelled from the spec: `str(exceptions)` — one block per record,
concatenated in the order the failures occurred. -/
def MessageCollector.render (c : MessageCollector) : String :=
  String.join (c.map renderSection)

/-- The fixed text `Serial.__call__` puts in front of `str(exceptions)` when
raising `DAGBuildError`. -/
def dagBuildErrorHeader : String :=
  "DAG build failed, the following tasks crashed (corresponding downstream tasks aborted execution):\n"

/-- Outcome of one `execute_in_subprocess` call.  `workerId` identifies the
freshly created `Pool(processes=1)`; `result` is what `res.get()` produces
(the build's report, or the re-raised failure of the remote call); `closed`
and `joined` record whether `p.close()` and `p.join()` executed. -/
structure SubprocRun (Report : Type) where
  workerId : Nat
  result : Except String Report
  closed : Bool
  joined : Bool

/-- Embedding of `execute_in_subprocess(task, build_kwargs)`: create a fresh
one-process pool, submit `task.build` with the kwargs, and block on
`res.get()`.  `get` returns the build's result, or re-raises the failure
raised inside the worker; in the raising case the exception propagates
*before* the `p.close()` / `p.join()` lines run, so those teardown steps are
skipped. -/
def execute_in_subprocess {Report Kwargs : Type} (task : Task Report Kwargs)
    (build_kwargs : Kwargs) (wid : Nat) : SubprocRun Report :=
  match task.build build_kwargs with
  | Except.error tr =>
      { workerId := wid, result := Except.error tr, closed := false, joined := false }
  | Except.ok res =>
      { workerId := wid, result := Except.ok res, closed := true, joined := true }

/-- One build event: which task was attempted, whether the build went through
the subprocess path, and the build's result. -/
structure BuildEvent (Report : Type) where
  taskName : String
  viaSubprocess : Bool
  result : Except String Report
deriving Repr

/-- The observable state threaded through the task loop of `Serial.__call__`:
the collector (`exceptions`), the reports (`task_reports`), the tasks after
their `exec_status` mutations (`finishedTasks`), the successful writes
performed through the `exec_status` setter (`writes`, pairing the task as it
entered with the status written), the progress-bar descriptions, the build
events, and the ids of subprocess workers spawned so far. -/
structure LoopState (Report Kwargs : Type) where
  exceptions : MessageCollector
  task_reports : List Report
  finishedTasks : List (Task Report Kwargs)
  writes : List (Task Report Kwargs × TaskStatus)
  progress : List String
  events : List (BuildEvent Report)
  subprocWids : List Nat
  nextWorkerId : Nat

/-- The loop's gate: `t.exec_status in {TaskStatus.Skipped,
TaskStatus.Aborted}`. -/
def isTerminalEntry {Report Kwargs : Type} (t : Task Report Kwargs) : Bool :=
  t.exec_status == TaskStatus.Skipped || t.exec_status == TaskStatus.Aborted

/-- The `try/except/else` around one build in `Serial.__call__`.  On a build
failure: `t.exec_status = TaskStatus.Errored`, record the traceback, no
report.  On success: try `t.exec_status = TaskStatus.Executed` — if the setter
raises, record that traceback and leave the status unchanged — and append the
report in either case. -/
def afterBuild {Report Kwargs : Type} (st : LoopState Report Kwargs)
    (t : Task Report Kwargs) (res : Except String Report) : LoopState Report Kwargs :=
  match res with
  | Except.error tr =>
      { st with
        finishedTasks := st.finishedTasks ++ [{ t with exec_status := TaskStatus.Errored }],
        writes := st.writes ++ [(t, TaskStatus.Errored)],
        exceptions := st.exceptions ++ [⟨tr, t.reprStr⟩] }
  | Except.ok report =>
      if t.setExecutedRaises then
        { st with
          exceptions := st.exceptions ++ [⟨t.setExecutedTrace, t.reprStr⟩],
          finishedTasks := st.finishedTasks ++ [t],
          task_reports := st.task_reports ++ [report] }
      else
        { st with
          finishedTasks := st.finishedTasks ++ [{ t with exec_status := TaskStatus.Executed }],
          writes := st.writes ++ [(t, TaskStatus.Executed)],
          task_reports := st.task_reports ++ [report] }

/-- One iteration of the `for t in tasks` loop: gate on Skipped/Aborted,
optionally emit the progress description, pick the subprocess path when
`callable(t.source.value) and self._build_in_subprocess`, then handle the
result. -/
def stepTask {Report Kwargs : Type} (bis sp : Bool) (kw : Kwargs)
    (st : LoopState Report Kwargs) (t : Task Report Kwargs) : LoopState Report Kwargs :=
  if isTerminalEntry t then
    { st with finishedTasks := st.finishedTasks ++ [t] }
  else
    let st1 := if sp then
        { st with progress := st.progress ++ ["Building task \"" ++ t.name ++ "\""] }
      else st
    if t.sourceIsCallable && bis then
      let sub := execute_in_subprocess t kw st1.nextWorkerId
      afterBuild
        { st1 with
          events := st1.events ++ [⟨t.name, true, sub.result⟩],
          subprocWids := st1.subprocWids ++ [sub.workerId],
          nextWorkerId := st1.nextWorkerId + 1 }
        t sub.result
    else
      afterBuild
        { st1 with events := st1.events ++ [⟨t.name, false, t.build kw⟩] }
        t (t.build kw)

/-- The task loop of `Serial.__call__`. -/
def buildLoop {Report Kwargs : Type} (bis sp : Bool) (kw : Kwargs) :
    LoopState Report Kwargs → List (Task Report Kwargs) → LoopState Report Kwargs
  | st, [] => st
  | st, t :: ts => buildLoop bis sp kw (stepTask bis sp kw st t) ts

/-- The empty state the loop starts from. -/
def initState {Report Kwargs : Type} : LoopState Report Kwargs :=
  ⟨[], [], [], [], [], [], [], 0⟩

/-- Everything observable about one run: the returned reports or the raised
`DAGBuildError` message (`outcome`), the final loop state, whether the
logging handler was attached / detached (modelled from the spec:
`LoggerHandler` is not under `src/`; `add` attaches a run-scoped handler and
`remove` detaches it), and which clients had `close()` called. -/
structure RunResult (Report Kwargs : Type) where
  outcome : Except String (List Report)
  finalState : LoopState Report Kwargs
  handlerAttached : Bool
  handlerRemoved : Bool
  closedClients : List String

/-- The final loop state of a run. -/
def runState {Report Kwargs : Type} (self : Serial) (dag : DAG Report Kwargs)
    (show_progress : Bool) (task_kwargs : Kwargs) : LoopState Report Kwargs :=
  buildLoop self.build_in_subprocess show_progress task_kwargs initState dag.tasks

/-- Embedding of `Serial.__call__(dag, show_progress, task_kwargs)`: attach the
logging handler when a logging directory is configured, run the task loop,
then — in this order — raise `DAGBuildError` when the collector is non-empty
(skipping handler removal and client closing), otherwise remove the handler
(when one was attached) and close every DAG client unless
`build_in_subprocess` is set, and return the reports. -/
def Serial.call {Report Kwargs : Type} (self : Serial) (dag : DAG Report Kwargs)
    (show_progress : Bool) (task_kwargs : Kwargs) : RunResult Report Kwargs :=
  let handlerAttached := self.logging_directory.isSome
  let st := runState self dag show_progress task_kwargs
  if st.exceptions.isEmpty then
    { outcome := Except.ok st.task_reports,
      finalState := st,
      handlerAttached := handlerAttached,
      handlerRemoved := handlerAttached,
      closedClients := if self.build_in_subprocess then [] else dag.clients }
  else
    { outcome := Except.error (dagBuildErrorHeader ++ MessageCollector.render st.exceptions),
      finalState := st,
      handlerAttached := handlerAttached,
      handlerRemoved := false,
      closedClients := [] }

/-! ### Per-task closed forms

Each component of the loop state grows by a per-task contribution that depends
only on the task itself (and the configuration); the lemma `buildLoop_spec`
below proves the loop equal to these closed forms. -/

/-- Failure records contributed by one task. -/
def taskFailures {Report Kwargs : Type} (kw : Kwargs) (t : Task Report Kwargs) :
    MessageCollector :=
  if isTerminalEntry t then []
  else match t.build kw with
    | Except.error tr => [⟨tr, t.reprStr⟩]
    | Except.ok _ => if t.setExecutedRaises then [⟨t.setExecutedTrace, t.reprStr⟩] else []

/-- Reports contributed by one task. -/
def taskReports {Report Kwargs : Type} (kw : Kwargs) (t : Task Report Kwargs) :
    List Report :=
  if isTerminalEntry t then [] else (t.build kw).toOption.toList

/-- The task as it stands after the loop processed it. -/
def finalTask {Report Kwargs : Type} (kw : Kwargs) (t : Task Report Kwargs) :
    Task Report Kwargs :=
  if isTerminalEntry t then t
  else match t.build kw with
    | Except.error _ => { t with exec_status := TaskStatus.Errored }
    | Except.ok _ =>
        if t.setExecutedRaises then t else { t with exec_status := TaskStatus.Executed }

/-- Successful `exec_status` writes contributed by one task. -/
def taskWrites {Report Kwargs : Type} (kw : Kwargs) (t : Task Report Kwargs) :
    List (Task Report Kwargs × TaskStatus) :=
  if isTerminalEntry t then []
  else match t.build kw with
    | Except.error _ => [(t, TaskStatus.Errored)]
    | Except.ok _ => if t.setExecutedRaises then [] else [(t, TaskStatus.Executed)]

/-- Progress descriptions contributed by one task. -/
def taskProgress {Report Kwargs : Type} (sp : Bool) (t : Task Report Kwargs) :
    List String :=
  if isTerminalEntry t then []
  else if sp then ["Building task \"" ++ t.name ++ "\""] else []

/-- Build events contributed by one task. -/
def taskEvents {Report Kwargs : Type} (bis : Bool) (kw : Kwargs)
    (t : Task Report Kwargs) : List (BuildEvent Report) :=
  if isTerminalEntry t then []
  else [⟨t.name, t.sourceIsCallable && bis, t.build kw⟩]

/-- Whether one task spawns a subprocess worker. -/
def spawns {Report Kwargs : Type} (bis : Bool) (t : Task Report Kwargs) : Bool :=
  !isTerminalEntry t && (t.sourceIsCallable && bis)

/-- The worker ids handed out, starting at `s`, to the next `n` spawned
workers. -/
def widRange : Nat → Nat → List Nat
  | _, 0 => []
  | s, n + 1 => s :: widRange (s + 1) n

/-! ### Concrete inputs used to exercise the definitions -/

/-- A Waiting task with callable source whose build returns report `7`. -/
def tOk : Task Nat Unit :=
  { name := "t_ok", reprStr := "Task t_ok", sourceIsCallable := true,
    exec_status := TaskStatus.Waiting, build := fun _ => Except.ok 7,
    setExecutedRaises := false, setExecutedTrace := "" }

/-- A Waiting task with non-callable source whose build returns report `8`. -/
def tOk2 : Task Nat Unit :=
  { name := "t_ok2", reprStr := "Task t_ok2", sourceIsCallable := false,
    exec_status := TaskStatus.Waiting, build := fun _ => Except.ok 8,
    setExecutedRaises := false, setExecutedTrace := "" }

/-- A Waiting task whose build raises with traceback `boom-trace`. -/
def tFail : Task Nat Unit :=
  { name := "t_fail", reprStr := "Task t_fail", sourceIsCallable := true,
    exec_status := TaskStatus.Waiting, build := fun _ => Except.error "boom-trace",
    setExecutedRaises := false, setExecutedTrace := "" }

/-- A task entering the run already Skipped. -/
def tSkip : Task Nat Unit :=
  { name := "t_skip", reprStr := "Task t_skip", sourceIsCallable := true,
    exec_status := TaskStatus.Skipped, build := fun _ => Except.ok 9,
    setExecutedRaises := false, setExecutedTrace := "" }

/-- A Waiting task that builds report `3` but whose `exec_status = Executed`
assignment raises with traceback `set-trace`. -/
def tSetFail : Task Nat Unit :=
  { name := "t_setfail", reprStr := "Task t_setfail", sourceIsCallable := false,
    exec_status := TaskStatus.Waiting, build := fun _ => Except.ok 3,
    setExecutedRaises := true, setExecutedTrace := "set-trace" }

/-- A task entering the run already Errored (an entry status the loop's gate
does not filter), whose build returns report `1`. -/
def tEnteredErrored : Task Nat Unit :=
  { name := "t_err_entry", reprStr := "Task t_err_entry", sourceIsCallable := false,
    exec_status := TaskStatus.Errored, build := fun _ => Except.ok 1,
    setExecutedRaises := false, setExecutedTrace := "" }

/-- Executor configured with logging and in-process builds. -/
def cfgNoSub : Serial :=
  { logging_directory := some "logs", logging_level := 20, build_in_subprocess := false }

/-- Executor configured with logging and subprocess builds. -/
def cfgSub : Serial :=
  { logging_directory := some "logs", logging_level := 20, build_in_subprocess := true }

/-- A DAG with a single failing task. -/
def dagFail : DAG Nat Unit := ⟨"dag_fail", [tFail], ["client_a"]⟩

/-- A DAG with two succeeding tasks and one skipped task. -/
def dagOk : DAG Nat Unit := ⟨"dag_ok", [tOk, tSkip, tOk2], ["client_a", "client_b"]⟩

/-- A DAG whose only task enters already Errored. -/
def dagEnteredErrored : DAG Nat Unit := ⟨"dag_err_entry", [tEnteredErrored], []⟩

/-- A DAG exercising the status-transition failure. -/
def dagSetFail : DAG Nat Unit := ⟨"dag_setfail", [tOk, tSetFail], []⟩

/-! ### Structural lemmas about the loop -/

theorem buildLoop_nil {Report Kwargs : Type} (bis sp : Bool) (kw : Kwargs)
    (st : LoopState Report Kwargs) : buildLoop bis sp kw st [] = st := rfl

theorem buildLoop_cons {Report Kwargs : Type} (bis sp : Bool) (kw : Kwargs)
    (st : LoopState Report Kwargs) (t : Task Report Kwargs) (ts : List (Task Report Kwargs)) :
    buildLoop bis sp kw st (t :: ts) = buildLoop bis sp kw (stepTask bis sp kw st t) ts := rfl

theorem buildLoop_append {Report Kwargs : Type} (bis sp : Bool) (kw : Kwargs)
    (st : LoopState Report Kwargs) (pre post : List (Task Report Kwargs)) :
    buildLoop bis sp kw st (pre ++ post)
      = buildLoop bis sp kw (buildLoop bis sp kw st pre) post := by
  induction pre generalizing st with
  | nil => rfl
  | cons t ts ih => simp [buildLoop_cons, ih]

/-- One loop iteration appends exactly the per-task closed-form
contributions. -/
theorem stepTask_eq {Report Kwargs : Type} (bis sp : Bool) (kw : Kwargs)
    (st : LoopState Report Kwargs) (t : Task Report Kwargs) :
    stepTask bis sp kw st t =
      { exceptions := st.exceptions ++ taskFailures kw t,
        task_reports := st.task_reports ++ taskReports kw t,
        finishedTasks := st.finishedTasks ++ [finalTask kw t],
        writes := st.writes ++ taskWrites kw t,
        progress := st.progress ++ taskProgress sp t,
        events := st.events ++ taskEvents bis kw t,
        subprocWids := st.subprocWids ++ (if spawns bis t then [st.nextWorkerId] else []),
        nextWorkerId := st.nextWorkerId + (if spawns bis t then 1 else 0) } := by
  cases hterm : isTerminalEntry t <;>
    cases hsp : sp <;>
      cases hcb : (t.sourceIsCallable && bis) <;>
        cases hb : t.build kw <;>
          cases hsr : t.setExecutedRaises <;>
            simp [stepTask, afterBuild, execute_in_subprocess, taskFailures, taskReports,
              finalTask, taskWrites, taskProgress, taskEvents, spawns, Except.toOption,
              Option.toList, hterm, hsp, hcb, hb, hsr]

theorem widRange_zero (s : Nat) : widRange s 0 = [] := rfl

theorem widRange_succ (s n : Nat) : widRange s (n + 1) = s :: widRange (s + 1) n := rfl

theorem mem_widRange {x s n : Nat} (h : x ∈ widRange s n) : s ≤ x ∧ x < s + n := by
  induction n generalizing s with
  | zero => simp [widRange] at h
  | succ n ih =>
    rw [widRange_succ] at h
    rcases List.mem_cons.mp h with h | h
    · omega
    · have := ih h
      omega

theorem widRange_nodup (s n : Nat) : (widRange s n).Nodup := by
  induction n generalizing s with
  | zero => simp [widRange]
  | succ n ih =>
    rw [widRange_succ]
    refine List.nodup_cons.mpr ⟨fun h => ?_, ih (s + 1)⟩
    have := mem_widRange h
    omega

/-- Closed form of the whole loop: every component of the final state is the
initial component followed by the concatenation of per-task contributions, in
task order. -/
theorem buildLoop_spec {Report Kwargs : Type} (bis sp : Bool) (kw : Kwargs)
    (ts : List (Task Report Kwargs)) (st : LoopState Report Kwargs) :
    buildLoop bis sp kw st ts =
      { exceptions := st.exceptions ++ ts.flatMap (taskFailures kw),
        task_reports := st.task_reports ++ ts.flatMap (taskReports kw),
        finishedTasks := st.finishedTasks ++ ts.map (finalTask kw),
        writes := st.writes ++ ts.flatMap (taskWrites kw),
        progress := st.progress ++ ts.flatMap (taskProgress sp),
        events := st.events ++ ts.flatMap (taskEvents bis kw),
        subprocWids := st.subprocWids ++ widRange st.nextWorkerId (ts.countP (spawns bis)),
        nextWorkerId := st.nextWorkerId + ts.countP (spawns bis) } := by
  induction ts generalizing st with
  | nil => simp [buildLoop_nil, widRange_zero]
  | cons t ts ih =>
    rw [buildLoop_cons, stepTask_eq, ih]
    cases hsp : spawns bis t <;>
      simp [List.countP_cons, hsp, widRange_succ, List.append_assoc]
    all_goals omega

/-- The closed form of the whole run's final loop state. -/
theorem runState_spec {Report Kwargs : Type} (self : Serial) (dag : DAG Report Kwargs)
    (sp : Bool) (kw : Kwargs) :
    runState self dag sp kw =
      { exceptions := dag.tasks.flatMap (taskFailures kw),
        task_reports := dag.tasks.flatMap (taskReports kw),
        finishedTasks := dag.tasks.map (finalTask kw),
        writes := dag.tasks.flatMap (taskWrites kw),
        progress := dag.tasks.flatMap (taskProgress sp),
        events := dag.tasks.flatMap (taskEvents self.build_in_subprocess kw),
        subprocWids := widRange 0 (dag.tasks.countP (spawns self.build_in_subprocess)),
        nextWorkerId := dag.tasks.countP (spawns self.build_in_subprocess) } := by
  rw [runState, buildLoop_spec]
  simp [initState]

/-- The run returns the final loop state unchanged on both exits. -/
theorem serialCall_finalState {Report Kwargs : Type} (self : Serial)
    (dag : DAG Report Kwargs) (sp : Bool) (kw : Kwargs) :
    (Serial.call self dag sp kw).finalState = runState self dag sp kw := by
  by_cases h : (runState self dag sp kw).exceptions.isEmpty <;>
    simp [Serial.call, h]

/-- The run's exit when the collector stayed empty: return the reports, remove
the handler (when attached), and close the clients unless
`build_in_subprocess` is set. -/
theorem serialCall_of_no_failures {Report Kwargs : Type} {self : Serial}
    {dag : DAG Report Kwargs} {sp : Bool} {kw : Kwargs}
    (h : (runState self dag sp kw).exceptions = []) :
    Serial.call self dag sp kw =
      { outcome := Except.ok (runState self dag sp kw).task_reports,
        finalState := runState self dag sp kw,
        handlerAttached := self.logging_directory.isSome,
        handlerRemoved := self.logging_directory.isSome,
        closedClients := if self.build_in_subprocess then [] else dag.clients } := by
  simp [Serial.call, List.isEmpty_iff, h]

/-- The run's exit when the collector is non-empty: raise `DAGBuildError`,
skipping handler removal and client closing. -/
theorem serialCall_of_failures {Report Kwargs : Type} {self : Serial}
    {dag : DAG Report Kwargs} {sp : Bool} {kw : Kwargs}
    (h : (runState self dag sp kw).exceptions ≠ []) :
    Serial.call self dag sp kw =
      { outcome := Except.error (dagBuildErrorHeader
          ++ MessageCollector.render (runState self dag sp kw).exceptions),
        finalState := runState self dag sp kw,
        handlerAttached := self.logging_directory.isSome,
        handlerRemoved := false,
        closedClients := [] } := by
  simp [Serial.call, List.isEmpty_iff, h]

/-- The events contributed by a task list: one event per non-terminal task, in
order. -/
theorem flatMap_taskEvents {Report Kwargs : Type} (bis : Bool) (kw : Kwargs)
    (ts : List (Task Report Kwargs)) :
    ts.flatMap (taskEvents bis kw)
      = (ts.filter (fun t => !isTerminalEntry t)).map
          (fun t => ⟨t.name, t.sourceIsCallable && bis, t.build kw⟩) := by
  induction ts with
  | nil => rfl
  | cons t ts ih =>
    cases hterm : isTerminalEntry t <;>
      simp [taskEvents, List.filter_cons, hterm, ih]

/-- The reports contributed by a task list: the successful build values of the
non-terminal tasks, in order. -/
theorem flatMap_taskReports {Report Kwargs : Type} (kw : Kwargs)
    (ts : List (Task Report Kwargs)) :
    ts.flatMap (taskReports kw)
      = ts.filterMap (fun t => if isTerminalEntry t then none else (t.build kw).toOption) := by
  induction ts with
  | nil => rfl
  | cons t ts ih =>
    cases hterm : isTerminalEntry t
    · cases hb : t.build kw <;>
        simp [taskReports, List.filterMap_cons, hterm, hb, ih, Except.toOption, Option.toList]
    · simp [taskReports, List.filterMap_cons, hterm, ih]

/-! ### Claims -/

/-- C2: on every run, every task in the supplied order whose entry status is
not Skipped and not Aborted is attempted — the run's build events are exactly
one event per such task, in the supplied order, each carrying that task's
build result.  The equality holds for every DAG, in particular for DAGs in
which earlier tasks fail, so every per-task failure is recovered locally, the
loop never stops early, and the aggregate is surfaced only after all tasks
have been attempted. -/
theorem serial_attempts_every_nonterminal_task {Report Kwargs : Type} (self : Serial)
    (dag : DAG Report Kwargs) (sp : Bool) (kw : Kwargs) :
    (Serial.call self dag sp kw).finalState.events
      = (dag.tasks.filter (fun t => !isTerminalEntry t)).map
          (fun t => ⟨t.name, t.sourceIsCallable && self.build_in_subprocess, t.build kw⟩) := by
  rw [serialCall_finalState, runState_spec]
  exact flatMap_taskEvents self.build_in_subprocess kw dag.tasks

/-- C10: two runs on the same executor, DAG and task kwargs that differ only
in the `show_progress` flag agree on everything observable except the
progress-bar descriptions: the outcome (reports or raised message), the
collected failures, the reports, every task's final state, the status writes,
the build events, the spawned workers, the closed clients and the logging
handler flags. -/
theorem serial_show_progress_is_display_only {Report Kwargs : Type} (self : Serial)
    (dag : DAG Report Kwargs) (kw : Kwargs) (sp1 sp2 : Bool) :
    (Serial.call self dag sp1 kw).outcome = (Serial.call self dag sp2 kw).outcome
  ∧ (Serial.call self dag sp1 kw).finalState.exceptions
      = (Serial.call self dag sp2 kw).finalState.exceptions
  ∧ (Serial.call self dag sp1 kw).finalState.task_reports
      = (Serial.call self dag sp2 kw).finalState.task_reports
  ∧ (Serial.call self dag sp1 kw).finalState.finishedTasks
      = (Serial.call self dag sp2 kw).finalState.finishedTasks
  ∧ (Serial.call self dag sp1 kw).finalState.writes
      = (Serial.call self dag sp2 kw).finalState.writes
  ∧ (Serial.call self dag sp1 kw).finalState.events
      = (Serial.call self dag sp2 kw).finalState.events
  ∧ (Serial.call self dag sp1 kw).finalState.subprocWids
      = (Serial.call self dag sp2 kw).finalState.subprocWids
  ∧ (Serial.call self dag sp1 kw).closedClients = (Serial.call self dag sp2 kw).closedClients
  ∧ (Serial.call self dag sp1 kw).handlerAttached = (Serial.call self dag sp2 kw).handlerAttached
  ∧ (Serial.call self dag sp1 kw).handlerRemoved = (Serial.call self dag sp2 kw).handlerRemoved := by
  have h1 := runState_spec self dag sp1 kw
  have h2 := runState_spec self dag sp2 kw
  by_cases h : dag.tasks.flatMap (taskFailures kw) = []
  · rw [serialCall_of_no_failures (by rw [h1]; exact h),
      serialCall_of_no_failures (by rw [h2]; exact h)]
    simp [h1, h2]
  · rw [serialCall_of_failures (by rw [h1]; simpa using h),
      serialCall_of_failures (by rw [h2]; simpa using h)]
    simp [h1, h2]

/-- C7: a build goes through the subprocess path exactly when
`build_in_subprocess` is enabled and the task's source is callable (recorded
in the run's build events); `execute_in_subprocess` returns exactly the
task's build result, so the isolated path is functionally identical to the
in-process path — runs of the same executor with isolation switched on and
off produce the same outcome, the same failure records, the same final tasks
and the same status writes. -/
theorem serial_isolation_strategy_refines_in_process {Report Kwargs : Type} :
    (∀ (t : Task Report Kwargs) (kw : Kwargs) (wid : Nat),
        (execute_in_subprocess t kw wid).result = t.build kw)
  ∧ (∀ (self : Serial) (dag : DAG Report Kwargs) (sp : Bool) (kw : Kwargs),
        (Serial.call self dag sp kw).finalState.events
          = (dag.tasks.filter (fun t => !isTerminalEntry t)).map
              (fun t => ⟨t.name, t.sourceIsCallable && self.build_in_subprocess, t.build kw⟩))
  ∧ (∀ (self : Serial) (dag : DAG Report Kwargs) (sp : Bool) (kw : Kwargs),
        (Serial.call { self with build_in_subprocess := true } dag sp kw).outcome
          = (Serial.call { self with build_in_subprocess := false } dag sp kw).outcome
      ∧ (Serial.call { self with build_in_subprocess := true } dag sp kw).finalState.exceptions
          = (Serial.call { self with build_in_subprocess := false } dag sp kw).finalState.exceptions
      ∧ (Serial.call { self with build_in_subprocess := true } dag sp kw).finalState.finishedTasks
          = (Serial.call { self with build_in_subprocess := false } dag sp kw).finalState.finishedTasks
      ∧ (Serial.call { self with build_in_subprocess := true } dag sp kw).finalState.writes
          = (Serial.call { self with build_in_subprocess := false } dag sp kw).finalState.writes) := by
  refine ⟨?_, ?_, ?_⟩
  · intro t kw wid
    cases hb : t.build kw <;> simp [execute_in_subprocess, hb]
  · intro self dag sp kw
    rw [serialCall_finalState, runState_spec]
    exact flatMap_taskEvents self.build_in_subprocess kw dag.tasks
  · intro self dag sp kw
    have h1 := runState_spec { self with build_in_subprocess := true } dag sp kw
    have h2 := runState_spec { self with build_in_subprocess := false } dag sp kw
    by_cases h : dag.tasks.flatMap (taskFailures kw) = []
    · rw [serialCall_of_no_failures (by rw [h1]; exact h),
        serialCall_of_no_failures (by rw [h2]; exact h)]
      simp [h1, h2]
    · rw [serialCall_of_failures (by rw [h1]; simpa using h),
        serialCall_of_failures (by rw [h2]; simpa using h)]
      simp [h1, h2]

/-- C1 counterexample: on a concrete failing run the raised message is the
fixed `DAGBuildError` explanatory text followed by the rendered collector
output, and therefore differs from the bare rendered Error Aggregator
output. -/
theorem serial_failure_message_not_bare_render :
    (Serial.call cfgNoSub dagFail false ()).outcome
      = Except.error (dagBuildErrorHeader
          ++ MessageCollector.render [⟨"boom-trace", "Task t_fail"⟩])
  ∧ dagBuildErrorHeader ++ MessageCollector.render [⟨"boom-trace", "Task t_fail"⟩]
      ≠ MessageCollector.render [⟨"boom-trace", "Task t_fail"⟩] := by
  refine ⟨rfl, ?_⟩
  decide

/-- C1 (amended): a run raises if and only if at least one failure record was
collected; the raised message is the fixed `DAGBuildError` header followed by
the rendered Error Aggregator output — one section per failing task, with
that task's identity and full trace, concatenated in the order the failures
occurred — and on the raising path no report sequence is returned. -/
theorem serial_raises_iff_failures_collected {Report Kwargs : Type} (self : Serial)
    (dag : DAG Report Kwargs) (sp : Bool) (kw : Kwargs) :
    ((∃ m, (Serial.call self dag sp kw).outcome = Except.error m)
        ↔ (runState self dag sp kw).exceptions ≠ [])
  ∧ (∀ m, (Serial.call self dag sp kw).outcome = Except.error m →
        m = dagBuildErrorHeader
            ++ MessageCollector.render (runState self dag sp kw).exceptions
        ∧ ∀ rs, (Serial.call self dag sp kw).outcome ≠ Except.ok rs)
  ∧ ((∃ rs, (Serial.call self dag sp kw).outcome = Except.ok rs)
        ↔ (runState self dag sp kw).exceptions = [])
  ∧ MessageCollector.render (runState self dag sp kw).exceptions
      = String.join ((runState self dag sp kw).exceptions.map renderSection) := by
  by_cases h : (runState self dag sp kw).exceptions = []
  · rw [serialCall_of_no_failures h]
    simp [h, MessageCollector.render]
  · rw [serialCall_of_failures h]
    simp [h, MessageCollector.render]

theorem serial_raises_iff_failures_collected_witness :
    (∃ m, (Serial.call cfgNoSub dagFail false ()).outcome = Except.error m)
  ∧ (Serial.call cfgNoSub dagFail false ()).outcome
      = Except.error (dagBuildErrorHeader
          ++ MessageCollector.render (runState cfgNoSub dagFail false ()).exceptions) := by
  have h := serial_raises_iff_failures_collected cfgNoSub dagFail false ()
  obtain ⟨m, hm⟩ := h.1.mpr (by decide)
  exact ⟨⟨m, hm⟩, by rw [hm, (h.2.1 m hm).1]⟩

/-- C3: clients are closed at most once per run, and only on a run that did
not raise with `build_in_subprocess` disabled; on a raising run no client is
closed and the logging handler attached at run start is not removed. -/
theorem serial_cleanup_hooks_only_on_success {Report Kwargs : Type} (self : Serial)
    (dag : DAG Report Kwargs) (sp : Bool) (kw : Kwargs) (h : dag.clients.Nodup) :
    (∀ m, (Serial.call self dag sp kw).outcome = Except.error m →
        (Serial.call self dag sp kw).closedClients = []
        ∧ (Serial.call self dag sp kw).handlerRemoved = false)
  ∧ (∀ rs, (Serial.call self dag sp kw).outcome = Except.ok rs →
        (Serial.call self dag sp kw).closedClients
            = (if self.build_in_subprocess then [] else dag.clients)
        ∧ (Serial.call self dag sp kw).handlerRemoved = self.logging_directory.isSome)
  ∧ (∀ c, (Serial.call self dag sp kw).closedClients.count c ≤ 1) := by
  by_cases hE : (runState self dag sp kw).exceptions = []
  · rw [serialCall_of_no_failures hE]
    refine ⟨by simp, by simp, ?_⟩
    intro c
    by_cases hb : self.build_in_subprocess <;> simp [hb]
    exact List.nodup_iff_count_le_one.mp h c
  · rw [serialCall_of_failures hE]
    exact ⟨by simp, by simp, by simp⟩

theorem serial_cleanup_hooks_only_on_success_witness :
    dagOk.clients.Nodup
  ∧ (Serial.call cfgNoSub dagOk false ()).closedClients.count "client_a" ≤ 1 :=
  ⟨by decide,
    (serial_cleanup_hooks_only_on_success cfgNoSub dagOk false () (by decide)).2.2 "client_a"⟩

theorem except_toOption_ok {ε α : Type} (a : α) :
    (Except.ok a : Except ε α).toOption = some a := rfl

theorem except_toOption_error {ε α : Type} (e : ε) :
    (Except.error e : Except ε α).toOption = none := rfl

theorem except_isOk_ok {ε α : Type} (a : α) :
    (Except.ok a : Except ε α).isOk = true := rfl

theorem except_isOk_error {ε α : Type} (e : ε) :
    (Except.error e : Except ε α).isOk = false := rfl

/-- Helper for C4: when every non-terminal task's build succeeds, the
collected reports are exactly one per non-terminal task. -/
theorem filterMap_length_of_all_ok {Report Kwargs : Type} (kw : Kwargs)
    (ts : List (Task Report Kwargs))
    (h : ∀ t ∈ ts, isTerminalEntry t = false → (t.build kw).isOk = true) :
    (ts.filterMap fun t => if isTerminalEntry t then none else (t.build kw).toOption).length
      = ts.countP fun t => !isTerminalEntry t := by
  induction ts with
  | nil => rfl
  | cons t ts ih =>
    have hts : ∀ t' ∈ ts, isTerminalEntry t' = false → (t'.build kw).isOk = true :=
      fun t' h' => h t' (List.mem_cons_of_mem _ h')
    cases hterm : isTerminalEntry t
    · have hok := h t (List.mem_cons_self t ts) hterm
      cases hb : t.build kw
      · rw [hb, except_isOk_error] at hok
        exact absurd hok (by simp)
      · simp [List.filterMap_cons, List.countP_cons, hterm, hb, except_toOption_ok, ih hts]
    · simp [List.filterMap_cons, List.countP_cons, hterm, ih hts]

/-- C4: a run in which no per-task failure occurs (every non-terminal task's
build succeeds and its status transition does not raise) returns the ordered
sequence of exactly those tasks' build values — one report per task whose
entry status was neither Skipped nor Aborted, in the supplied order, each
produced by that task's build applied to the shared `task_kwargs`. -/
theorem serial_success_returns_all_reports {Report Kwargs : Type} (self : Serial)
    (dag : DAG Report Kwargs) (sp : Bool) (kw : Kwargs)
    (h : ∀ t ∈ dag.tasks, isTerminalEntry t = false →
        (t.build kw).isOk = true ∧ t.setExecutedRaises = false) :
    (Serial.call self dag sp kw).outcome
      = Except.ok (dag.tasks.filterMap
          (fun t => if isTerminalEntry t then none else (t.build kw).toOption))
  ∧ (dag.tasks.filterMap
        (fun t => if isTerminalEntry t then none else (t.build kw).toOption)).length
      = dag.tasks.countP (fun t => !isTerminalEntry t) := by
  have hexc : (runState self dag sp kw).exceptions = [] := by
    rw [runState_spec]
    refine List.flatMap_eq_nil_iff.mpr ?_
    intro t ht
    cases hterm : isTerminalEntry t
    · obtain ⟨hok, hsr⟩ := h t ht hterm
      cases hb : t.build kw
      · rw [hb, except_isOk_error] at hok
        exact absurd hok (by simp)
      · simp [taskFailures, hterm, hb, hsr]
    · simp [taskFailures, hterm]
  rw [serialCall_of_no_failures hexc]
  refine ⟨?_, filterMap_length_of_all_ok kw dag.tasks (fun t ht h' => (h t ht h').1)⟩
  rw [runState_spec]
  simp [flatMap_taskReports]

theorem serial_success_returns_all_reports_witness :
    (∀ t ∈ dagOk.tasks, isTerminalEntry t = false →
        (t.build ()).isOk = true ∧ t.setExecutedRaises = false)
  ∧ (Serial.call cfgSub dagOk false ()).outcome = Except.ok [7, 8] := by
  refine ⟨by decide, ?_⟩
  have h := serial_success_returns_all_reports cfgSub dagOk false () (by decide)
  exact h.1.trans (by rfl)

/-- C5: a task entering Skipped or Aborted is skipped entirely — removing it
from the DAG changes neither the outcome, nor the build events (its build is
never invoked), nor the failure records, nor the status writes, nor the
closed clients; and its final state is the task unchanged, in place. -/
theorem serial_terminal_entry_skipped_entirely {Report Kwargs : Type} (self : Serial)
    (sp : Bool) (kw : Kwargs) (dname : String) (clients : List String)
    (pre post : List (Task Report Kwargs)) (t : Task Report Kwargs)
    (h : isTerminalEntry t = true) :
    (Serial.call self ⟨dname, pre ++ t :: post, clients⟩ sp kw).outcome
        = (Serial.call self ⟨dname, pre ++ post, clients⟩ sp kw).outcome
  ∧ (Serial.call self ⟨dname, pre ++ t :: post, clients⟩ sp kw).finalState.events
        = (Serial.call self ⟨dname, pre ++ post, clients⟩ sp kw).finalState.events
  ∧ (Serial.call self ⟨dname, pre ++ t :: post, clients⟩ sp kw).finalState.exceptions
        = (Serial.call self ⟨dname, pre ++ post, clients⟩ sp kw).finalState.exceptions
  ∧ (Serial.call self ⟨dname, pre ++ t :: post, clients⟩ sp kw).finalState.task_reports
        = (Serial.call self ⟨dname, pre ++ post, clients⟩ sp kw).finalState.task_reports
  ∧ (Serial.call self ⟨dname, pre ++ t :: post, clients⟩ sp kw).finalState.writes
        = (Serial.call self ⟨dname, pre ++ post, clients⟩ sp kw).finalState.writes
  ∧ (Serial.call self ⟨dname, pre ++ t :: post, clients⟩ sp kw).closedClients
        = (Serial.call self ⟨dname, pre ++ post, clients⟩ sp kw).closedClients
  ∧ (Serial.call self ⟨dname, pre ++ t :: post, clients⟩ sp kw).finalState.finishedTasks
        = pre.map (finalTask kw) ++ t :: post.map (finalTask kw) := by
  have hfail : taskFailures kw t = [] := by simp [taskFailures, h]
  have hrep : taskReports kw t = [] := by simp [taskReports, h]
  have hwr : taskWrites kw t = [] := by simp [taskWrites, h]
  have hev : taskEvents self.build_in_subprocess kw t = [] := by simp [taskEvents, h]
  have hfin : finalTask kw t = t := by simp [finalTask, h]
  have hsp : spawns self.build_in_subprocess t = false := by simp [spawns, h]
  have hexc : (runState self ⟨dname, pre ++ t :: post, clients⟩ sp kw).exceptions
      = (runState self ⟨dname, pre ++ post, clients⟩ sp kw).exceptions := by
    simp [runState_spec, hfail]
  have hrep2 : (runState self ⟨dname, pre ++ t :: post, clients⟩ sp kw).task_reports
      = (runState self ⟨dname, pre ++ post, clients⟩ sp kw).task_reports := by
    simp [runState_spec, hrep]
  have hwr2 : (runState self ⟨dname, pre ++ t :: post, clients⟩ sp kw).writes
      = (runState self ⟨dname, pre ++ post, clients⟩ sp kw).writes := by
    simp [runState_spec, hwr]
  have hev2 : (runState self ⟨dname, pre ++ t :: post, clients⟩ sp kw).events
      = (runState self ⟨dname, pre ++ post, clients⟩ sp kw).events := by
    simp [runState_spec, hev]
  have hfin2 : (runState self ⟨dname, pre ++ t :: post, clients⟩ sp kw).finishedTasks
      = pre.map (finalTask kw) ++ t :: post.map (finalTask kw) := by
    simp [runState_spec, hfin]
  refine ⟨?_, ?_, ?_, ?_, ?_, ?_, ?_⟩
  case _ =>
    by_cases hE : (runState self ⟨dname, pre ++ post, clients⟩ sp kw).exceptions = []
    · rw [serialCall_of_no_failures (hexc.trans hE), serialCall_of_no_failures hE]
      simpa using hrep2
    · rw [serialCall_of_failures (fun hc => hE (hexc.symm.trans hc)),
        serialCall_of_failures hE]
      simp [hexc]
  case _ => rw [serialCall_finalState, serialCall_finalState]; exact hev2
  case _ => rw [serialCall_finalState, serialCall_finalState]; exact hexc
  case _ => rw [serialCall_finalState, serialCall_finalState]; exact hrep2
  case _ => rw [serialCall_finalState, serialCall_finalState]; exact hwr2
  case _ =>
    by_cases hE : (runState self ⟨dname, pre ++ post, clients⟩ sp kw).exceptions = []
    · rw [serialCall_of_no_failures (hexc.trans hE), serialCall_of_no_failures hE]
    · rw [serialCall_of_failures (fun hc => hE (hexc.symm.trans hc)),
        serialCall_of_failures hE]
  case _ => rw [serialCall_finalState]; exact hfin2

theorem serial_terminal_entry_skipped_entirely_witness :
    isTerminalEntry tSkip = true
  ∧ (Serial.call cfgNoSub ⟨"dag_w5", [tOk] ++ tSkip :: [tOk2], ["client_a"]⟩ false ()).outcome
      = (Serial.call cfgNoSub ⟨"dag_w5", [tOk] ++ [tOk2], ["client_a"]⟩ false ()).outcome :=
  ⟨by decide,
    (serial_terminal_entry_skipped_entirely cfgNoSub false () "dag_w5" ["client_a"]
      [tOk] [tOk2] tSkip (by decide)).1⟩

/-- C6: when a task's build succeeds but the `exec_status = Executed`
assignment raises, the failure is recorded exactly like a build failure (task
identity plus trace), the task's report is still appended, the task's status
is left unchanged, and the loop continues with the remaining tasks. -/
theorem serial_status_transition_failure_keeps_report {Report Kwargs : Type}
    (kw : Kwargs) (t : Task Report Kwargs) (r : Report)
    (hg : isTerminalEntry t = false)
    (hb : t.build kw = Except.ok r)
    (hs : t.setExecutedRaises = true) :
    taskFailures kw t = [⟨t.setExecutedTrace, t.reprStr⟩]
  ∧ taskReports kw t = [r]
  ∧ finalTask kw t = t
  ∧ taskWrites kw t = []
  ∧ (∀ (bis sp : Bool) (st : LoopState Report Kwargs)
        (pre post : List (Task Report Kwargs)),
        buildLoop bis sp kw st (pre ++ t :: post)
          = buildLoop bis sp kw (stepTask bis sp kw (buildLoop bis sp kw st pre) t) post)
  ∧ (∀ (self : Serial) (dag : DAG Report Kwargs) (sp : Bool), t ∈ dag.tasks →
        (⟨t.setExecutedTrace, t.reprStr⟩ : Message)
            ∈ (Serial.call self dag sp kw).finalState.exceptions
        ∧ r ∈ (Serial.call self dag sp kw).finalState.task_reports) := by
  have h1 : taskFailures kw t = [⟨t.setExecutedTrace, t.reprStr⟩] := by
    simp [taskFailures, hg, hb, hs]
  have h2 : taskReports kw t = [r] := by
    simp [taskReports, hg, hb, except_toOption_ok]
  refine ⟨h1, h2, by simp [finalTask, hg, hb, hs], by simp [taskWrites, hg, hb, hs], ?_, ?_⟩
  · intro bis sp st pre post
    rw [buildLoop_append, buildLoop_cons]
  · intro self dag sp ht
    rw [serialCall_finalState, runState_spec]
    constructor
    · exact List.mem_flatMap.mpr ⟨t, ht, by rw [h1]; exact List.mem_cons_self _ _⟩
    · exact List.mem_flatMap.mpr ⟨t, ht, by rw [h2]; exact List.mem_cons_self _ _⟩

theorem serial_status_transition_failure_keeps_report_witness :
    taskReports () tSetFail = [3]
  ∧ (⟨"set-trace", "Task t_setfail"⟩ : Message)
      ∈ (Serial.call cfgNoSub dagSetFail false ()).finalState.exceptions
  ∧ (3 : Nat) ∈ (Serial.call cfgNoSub dagSetFail false ()).finalState.task_reports := by
  have h := serial_status_transition_failure_keeps_report () tSetFail 3 (by decide) rfl rfl
  have h6 := h.2.2.2.2.2 cfgNoSub dagSetFail false (by simp [dagSetFail])
  exact ⟨h.2.1, h6.1, h6.2⟩

/-- C8 counterexample: when the build inside the isolated worker raises,
`res.get()` re-raises the failure before the `p.close()` / `p.join()` lines
run, so the worker is not torn down before control returns on the failing
path — teardown is not unconditional. -/
theorem subprocess_teardown_skipped_on_failure :
    (execute_in_subprocess tFail () 0).result = Except.error "boom-trace"
  ∧ (execute_in_subprocess tFail () 0).closed = false
  ∧ (execute_in_subprocess tFail () 0).joined = false :=
  ⟨rfl, rfl, rfl⟩

/-- C8 (amended): every isolated build creates a fresh single-use worker that
is never reused across tasks (the worker ids of one run are pairwise
distinct, handed out consecutively); the worker is closed and joined when it
returns a result, but when it raises, the failure propagates before teardown
and close/join are skipped. -/
theorem subprocess_fresh_worker_per_build {Report Kwargs : Type} :
    (∀ (t : Task Report Kwargs) (kw : Kwargs) (wid : Nat) (r : Report),
        t.build kw = Except.ok r →
          (execute_in_subprocess t kw wid).closed = true
          ∧ (execute_in_subprocess t kw wid).joined = true)
  ∧ (∀ (t : Task Report Kwargs) (kw : Kwargs) (wid : Nat) (m : String),
        t.build kw = Except.error m →
          (execute_in_subprocess t kw wid).closed = false
          ∧ (execute_in_subprocess t kw wid).joined = false)
  ∧ (∀ (t : Task Report Kwargs) (kw : Kwargs) (wid : Nat),
        (execute_in_subprocess t kw wid).workerId = wid)
  ∧ (∀ (self : Serial) (dag : DAG Report Kwargs) (sp : Bool) (kw : Kwargs),
        (Serial.call self dag sp kw).finalState.subprocWids
            = widRange 0 (dag.tasks.countP (spawns self.build_in_subprocess))
        ∧ (Serial.call self dag sp kw).finalState.subprocWids.Nodup) := by
  refine ⟨?_, ?_, ?_, ?_⟩
  · intro t kw wid r hb
    simp [execute_in_subprocess, hb]
  · intro t kw wid m hb
    simp [execute_in_subprocess, hb]
  · intro t kw wid
    cases hb : t.build kw <;> simp [execute_in_subprocess, hb]
  · intro self dag sp kw
    rw [serialCall_finalState, runState_spec]
    exact ⟨rfl, widRange_nodup 0 _⟩

theorem subprocess_fresh_worker_per_build_witness :
    (execute_in_subprocess tOk () 5).closed = true
  ∧ (execute_in_subprocess tFail () 5).joined = false :=
  ⟨((@subprocess_fresh_worker_per_build Nat Unit).1 tOk () 5 7 rfl).1,
    ((@subprocess_fresh_worker_per_build Nat Unit).2.1 tFail () 5 "boom-trace" rfl).2⟩

/-- C9 counterexample: the loop's gate only filters Skipped and Aborted, so a
task whose entry status is already Errored is rebuilt and its status is
written — here to Executed — refuting that only tasks entering as Waiting may
have their status set. -/
theorem serial_writes_status_of_errored_entry :
    tEnteredErrored.exec_status = TaskStatus.Errored
  ∧ (Serial.call cfgNoSub dagEnteredErrored false ()).finalState.writes
      = [(tEnteredErrored, TaskStatus.Executed)] :=
  ⟨rfl, rfl⟩

/-- C9 (amended): provided every task enters the run with status Waiting,
Skipped or Aborted — the statuses the external DAG builder sets before the
loop starts — every status write the loop performs is on a task whose entry
status was Waiting, and only to Executed or Errored; tasks entering as
Skipped or Aborted get no write and keep their status.  (Without that entry
precondition the gate, which only checks Skipped/Aborted, also lets tasks
entering as Executed or Errored be rebuilt and rewritten.) -/
theorem serial_status_writes_monotonic {Report Kwargs : Type} (self : Serial)
    (dag : DAG Report Kwargs) (sp : Bool) (kw : Kwargs)
    (h : ∀ t ∈ dag.tasks, t.exec_status = TaskStatus.Waiting
        ∨ t.exec_status = TaskStatus.Skipped ∨ t.exec_status = TaskStatus.Aborted) :
    (∀ p ∈ (Serial.call self dag sp kw).finalState.writes,
        p.1.exec_status = TaskStatus.Waiting
        ∧ (p.2 = TaskStatus.Executed ∨ p.2 = TaskStatus.Errored))
  ∧ (∀ t ∈ dag.tasks, isTerminalEntry t = true →
        finalTask kw t = t
        ∧ ∀ s, (t, s) ∉ (Serial.call self dag sp kw).finalState.writes) := by
  rw [serialCall_finalState, runState_spec]
  constructor
  · intro p hp
    obtain ⟨t, ht, hmem⟩ := List.mem_flatMap.mp hp
    have hWa : isTerminalEntry t = false → t.exec_status = TaskStatus.Waiting := by
      intro hterm
      rcases h t ht with hW | hS | hA
      · exact hW
      · rw [isTerminalEntry, hS] at hterm
        simp at hterm
      · rw [isTerminalEntry, hA] at hterm
        simp at hterm
    cases hterm : isTerminalEntry t
    · cases hb : t.build kw
      · have hmem' : p.1 = t ∧ p.2 = TaskStatus.Errored := by
          simpa [taskWrites, hterm, hb, Prod.ext_iff] using hmem
        exact ⟨hmem'.1 ▸ hWa hterm, Or.inr hmem'.2⟩
      · cases hsr : t.setExecutedRaises
        · have hmem' : p.1 = t ∧ p.2 = TaskStatus.Executed := by
            simpa [taskWrites, hterm, hb, hsr, Prod.ext_iff] using hmem
          exact ⟨hmem'.1 ▸ hWa hterm, Or.inl hmem'.2⟩
        · exact absurd hmem (by simp [taskWrites, hterm, hb, hsr])
    · exact absurd hmem (by simp [taskWrites, hterm])
  · intro t ht hterm
    refine ⟨by simp [finalTask, hterm], ?_⟩
    intro s hs
    obtain ⟨t', ht', hmem⟩ := List.mem_flatMap.mp hs
    cases hterm' : isTerminalEntry t'
    · have ht'' : t = t' := by
        cases hb : t'.build kw
        · have h2 : t = t' ∧ s = TaskStatus.Errored := by
            simpa [taskWrites, hterm', hb, Prod.ext_iff] using hmem
          exact h2.1
        · cases hsr : t'.setExecutedRaises
          · have h2 : t = t' ∧ s = TaskStatus.Executed := by
              simpa [taskWrites, hterm', hb, hsr, Prod.ext_iff] using hmem
            exact h2.1
          · exact absurd hmem (by simp [taskWrites, hterm', hb, hsr])
      rw [← ht''] at hterm'
      rw [hterm] at hterm'
      exact Bool.noConfusion hterm'
    · exact absurd hmem (by simp [taskWrites, hterm'])

theorem serial_status_writes_monotonic_witness :
    (∀ t ∈ dagOk.tasks, t.exec_status = TaskStatus.Waiting
        ∨ t.exec_status = TaskStatus.Skipped ∨ t.exec_status = TaskStatus.Aborted)
  ∧ finalTask () tSkip = tSkip :=
  ⟨by decide,
    ((serial_status_writes_monotonic cfgNoSub dagOk false () (by decide)).2 tSkip
      (by simp [dagOk]) (by decide)).1⟩

end Ploomber
